import Mathlib

/-!
Verification of the query-logger component (src/sqlx-core/src/logger.rs).

Rust strings are modelled as lists of Unicode scalar values (`List Char`).
Durations and `u64` counters are modelled as `Nat`, with `u64` wrap-around
(release-mode semantics) written explicitly as `% 2 ^ 64`.
The multi-line regexes of `trim_query` are modelled line-by-line: splitting the
text on the newline character gives exactly the positions where the multi-line
anchor of the Rust regex crate matches.
-/

namespace SqlxLogger

/-- Characters of a Rust string. -/
abbrev Str := List Char

/-- Rust `char::is_whitespace`: the Unicode White_Space property, which is also
the character class of `\s` in the regex crate's default Unicode mode. -/
def isWS (c : Char) : Bool :=
  decide ((0x09 ≤ c.toNat ∧ c.toNat ≤ 0x0d) ∨ c.toNat = 0x20 ∨ c.toNat = 0x85 ∨
    c.toNat = 0xa0 ∨ c.toNat = 0x1680 ∨ (0x2000 ≤ c.toNat ∧ c.toNat ≤ 0x200a) ∨
    c.toNat = 0x2028 ∨ c.toNat = 0x2029 ∨ c.toNat = 0x202f ∨ c.toNat = 0x205f ∨
    c.toNat = 0x3000)

/-- Rust `str::trim`: remove leading and trailing whitespace. -/
def trimStr (s : Str) : Str :=
  ((s.dropWhile isWS).reverse.dropWhile isWS).reverse

/-- Split a text into its lines at the newline character.  The list always has
one more entry than the text has newlines, so its entries are exactly the
segments at which a multi-line `^` anchor matches. -/
def splitLines : Str → List Str
  | [] => [[]]
  | c :: cs =>
    match splitLines cs with
    | [] => [[]]
    | l :: ls => if c = '\n' then [] :: l :: ls else (c :: l) :: ls

/-- Rejoin lines with the newline character (inverse of `splitLines`). -/
def joinLines : List Str → Str
  | [] => []
  | [l] => l
  | l :: ls => l ++ '\n' :: joinLines ls

/-- Number of leading literal space characters of a line. -/
def leadingSpaces (l : Str) : Nat :=
  (l.takeWhile (fun c => c = ' ')).length

/-- Per-line semantics of the regex `^( +)\S` of `trim_query` (logger.rs:199):
`some k` when the line starts with `k ≥ 1` spaces followed by a
non-whitespace character, `none` otherwise (whitespace-only lines and lines
whose indentation involves a tab never match, since backtracking the group
still leaves a whitespace character under `\S`). -/
def lineIndent (l : Str) : Option Nat :=
  if 1 ≤ leadingSpaces l then
    match l.drop (leadingSpaces l) with
    | [] => none
    | c :: _ => if isWS c then none else some (leadingSpaces l)
  else none

/-- One step of the minimum-indentation loop of `trim_query`
(logger.rs:205-208): `min_indent = Some(min_indent.map_or(indent, min))`. -/
def minStep (acc : Option Nat) (l : Str) : Option Nat :=
  match lineIndent l with
  | none => acc
  | some k =>
    match acc with
    | none => some k
    | some m => some (Nat.min m k)

/-- The minimum indentation found by iterating over all matches of `^( +)\S`
in multi-line mode, i.e. over all lines. -/
def minIndent (L : List Str) : Option Nat :=
  L.foldl minStep none

/-- Per-line semantics of `replace_all` with the regex `^[ ]{1,m}`
(logger.rs:212-216): greedily strip up to `m` leading spaces from the line. -/
def dedentLine (m : Nat) (l : Str) : Str :=
  l.drop (Nat.min m (leadingSpaces l))

/-- `trim_query` (logger.rs:193-221): trim the whole block, find the minimum
leading-space indentation over lines matching `^( +)\S`, and if one was found
strip up to that many leading spaces from every line; otherwise return the
trimmed block unchanged. -/
def trim_query (s : Str) : Str :=
  let t := trimStr s
  match minIndent (splitLines t) with
  | some m => joinLines ((splitLines t).map (dedentLine m))
  | none => t

/-- Rust `str::split_whitespace`: the maximal runs of non-whitespace
characters, in order. -/
def splitWhitespace (s : Str) : List Str :=
  let p : List Str × Str := s.foldr
    (fun c acc =>
      if isWS c then
        match acc with
        | (ws, []) => (ws, [])
        | (ws, cur) => (cur :: ws, [])
      else (acc.1, c :: acc.2))
    ([], [])
  match p with
  | (ws, []) => ws
  | (ws, cur) => cur :: ws

/-- `Vec::join` with a separator. -/
def joinWith (sep : Str) : List Str → Str
  | [] => []
  | [w] => w
  | w :: ws => w ++ sep ++ joinWith sep ws

/-- `parse_query_summary` (logger.rs:185-191): first 4 whitespace-delimited
words, rejoined with single spaces. -/
def parse_query_summary (s : Str) : Str :=
  joinWith [' '] ((splitWhitespace s).take 4)

/-- `log::LevelFilter` (6-value severity filter, including Off). -/
inductive LevelFilter
  | off
  | error
  | warn
  | info
  | debug
  | trace
  deriving DecidableEq

/-- `tracing::Level` (5 active severities). -/
inductive TracingLevel
  | error
  | warn
  | info
  | debug
  | trace
  deriving DecidableEq

/-- `log::Level` (5 active severities). -/
inductive LogLevel
  | error
  | warn
  | info
  | debug
  | trace
  deriving DecidableEq

/-- Rust `Option::zip`. -/
def ozip {α β : Type} : Option α → Option β → Option (α × β)
  | some a, some b => some (a, b)
  | _, _ => none

/-- The `match` of `private_level_filter_to_levels` (logger.rs:46-53). -/
def tracingLevelOf : LevelFilter → Option TracingLevel
  | .error => some .error
  | .warn => some .warn
  | .info => some .info
  | .debug => some .debug
  | .trace => some .trace
  | .off => none

/-- `log::LevelFilter::to_level` from the log crate: the corresponding
`log::Level`, or `None` for `Off`. -/
def logLevelOf : LevelFilter → Option LogLevel
  | .error => some .error
  | .warn => some .warn
  | .info => some .info
  | .debug => some .debug
  | .trace => some .trace
  | .off => none

/-- `private_level_filter_to_levels` (logger.rs:43-56). -/
def private_level_filter_to_levels (filter : LevelFilter) :
    Option (TracingLevel × LogLevel) :=
  ozip (tracingLevelOf filter) (logLevelOf filter)

/-- `LogSettings` as consumed by the logger; the duration is in arbitrary
fixed time units. -/
structure LogSettings where
  statements_level : LevelFilter
  slow_statements_level : LevelFilter
  slow_statements_duration : Nat
  deriving DecidableEq

/-- `2 ^ 64`, the modulus of the `u64` row counters. -/
def U64LIMIT : Nat := 2 ^ 64

/-- The fixed target identifier `"sqlx::query"` used for both the
`log_enabled` check and the emitted event (logger.rs:123-124, 144, 162). -/
def queryTarget : Str := "sqlx::query".data

/-- The environment the logger runs in: the two facilities' per-target
enabled probes (`log::log_enabled` and the dynamic `tracing::enabled`), and
`sqlformat::format` with `QueryParams::None` and default options, an external
SQL pretty-printer treated as an opaque function of the statement text. -/
structure Env where
  logEnabled : Str → LogLevel → Bool
  tracingEnabled : Str → TracingLevel → Bool
  fmt : Str → Str

/-- `QueryLogger` (logger.rs:61-68).  The monotonic start timestamp is not
stored; instead `finish` receives the elapsed time as a parameter.  The span
handle is modelled by the attributes recorded on it: the resource name set at
construction and the deferred `db.row_count` field. -/
structure QueryLogger where
  sql : Str
  rows_returned : Nat
  rows_affected : Nat
  settings : LogSettings
  spanResourceName : Str
  spanRowCount : Option Nat
  deriving DecidableEq

/-- `QueryLogger::new` (logger.rs:71-91): zeroed counters, span opened with
the trimmed query as its resource name and an empty `db.row_count`. -/
def QueryLogger.new (sql : Str) (settings : LogSettings) : QueryLogger :=
  { sql := sql
    rows_returned := 0
    rows_affected := 0
    settings := settings
    spanResourceName := trim_query sql
    spanRowCount := none }

/-- `QueryLogger::increment_rows_returned` (logger.rs:93-95), with `u64`
wrap-around. -/
def QueryLogger.increment_rows_returned (l : QueryLogger) : QueryLogger :=
  { l with rows_returned := (l.rows_returned + 1) % U64LIMIT }

/-- `QueryLogger::increase_rows_affected` (logger.rs:97-99), with `u64`
wrap-around. -/
def QueryLogger.increase_rows_affected (l : QueryLogger) (n : Nat) : QueryLogger :=
  { l with rows_affected := (l.rows_affected + n) % U64LIMIT }

/-- The span update at the top of `finish` (logger.rs:102-109): record
`db.row_count` as `rows_affected` if positive, else `rows_returned`. -/
def QueryLogger.recordRowCount (l : QueryLogger) : QueryLogger :=
  { l with
    spanRowCount :=
      some (if l.rows_affected > 0 then l.rows_affected else l.rows_returned) }

/-- The message of the slow-path event (logger.rs:158). -/
def slowMessage : Str :=
  "slow statement: execution time exceeded alert threshold".data

/-- The marker pushed after the summary (logger.rs:129).  The source file
literally contains the three characters U+00E2 U+20AC U+00A6 (the UTF-8 bytes
of the horizontal ellipsis U+2026, re-decoded), preceded by a space. -/
def ellipsisMarker : Str :=
  [Char.ofNat 0xe2, Char.ofNat 0x20ac, Char.ofNat 0xa6]

/-- The fixed truncation suffix appended to a shortened summary: a space
followed by the ellipsis marker (logger.rs:129). -/
def truncationSuffix : Str := ' ' :: ellipsisMarker

/-- One structured record as emitted by `private_tracing_dynamic_event!`
(logger.rs:142-173): severity, the `summary`, `db.statement`,
`rows_affected`, `rows_returned` and elapsed fields, the slow-path-only
`slow_threshold` field, and the message text. -/
structure Record where
  tracing_level : TracingLevel
  summary : Str
  statement : Str
  rows_affected : Nat
  rows_returned : Nat
  elapsed : Nat
  slow_threshold : Option Nat
  message : Str
  deriving DecidableEq

/-- The record built once emission is confirmed (logger.rs:126-173): the
summary gains the truncation suffix and the statement is the
`sqlformat`-rendered text wrapped as `"\n\n{}\n"` exactly when the bare
summary differs from the raw statement text. -/
def QueryLogger.buildRecord (l : QueryLogger) (env : Env) (elapsed : Nat)
    (tracing_level : TracingLevel) : Record :=
  { tracing_level := tracing_level
    summary :=
      if parse_query_summary l.sql ≠ l.sql then
        parse_query_summary l.sql ++ truncationSuffix
      else parse_query_summary l.sql
    statement :=
      if parse_query_summary l.sql ≠ l.sql then
        '\n' :: '\n' :: (env.fmt l.sql ++ ['\n'])
      else []
    rows_affected := l.rows_affected
    rows_returned := l.rows_returned
    elapsed := elapsed
    slow_threshold :=
      if l.settings.slow_statements_duration ≤ elapsed then
        some l.settings.slow_statements_duration
      else none
    message :=
      if l.settings.slow_statements_duration ≤ elapsed then slowMessage
      else [] }

/-- The emission decision of `finish` (logger.rs:110-175): select the level
by `was_slow = elapsed >= slow_statements_duration`, stop if the level maps
to `None` (Off), stop if neither facility has the level enabled for the
target, otherwise emit one record. -/
def QueryLogger.emitRecord (l : QueryLogger) (env : Env) (elapsed : Nat) :
    Option Record :=
  match private_level_filter_to_levels
      (if l.settings.slow_statements_duration ≤ elapsed then
        l.settings.slow_statements_level
      else l.settings.statements_level) with
  | none => none
  | some (tracing_level, log_level) =>
    if env.logEnabled queryTarget log_level
        || env.tracingEnabled queryTarget tracing_level then
      some (l.buildRecord env elapsed tracing_level)
    else none

/-- `QueryLogger::finish` (logger.rs:101-176): update the span's row count,
then decide and (possibly) emit.  Returns the updated logger state and the
emitted record, if any. -/
def QueryLogger.finish (l : QueryLogger) (env : Env) (elapsed : Nat) :
    QueryLogger × Option Record :=
  (l.recordRowCount, l.recordRowCount.emitRecord env elapsed)

/-- `impl Drop for QueryLogger` (logger.rs:179-183): dropping invokes
`finish`. -/
def QueryLogger.dropLogger (l : QueryLogger) (env : Env) (elapsed : Nat) :
    QueryLogger × Option Record :=
  l.finish env elapsed

/-- The lifecycle in which `finish` is called explicitly (at elapsed time
`e1`) and the logger is subsequently dropped (at elapsed time `e2`), which
invokes `finish` again; the result is the list of all records emitted. -/
def finishThenDrop (l : QueryLogger) (env : Env) (e1 e2 : Nat) : List Record :=
  ((l.finish env e1).2).toList ++ (((l.finish env e1).1.dropLogger env e2).2).toList

/-- The Level Bridge activity check as inlined in `finish`
(logger.rs:120-124): a level is active when it maps to a concrete level pair
and either facility has it enabled for the fixed target. -/
def isActive (env : Env) (lvl : LevelFilter) : Bool :=
  match private_level_filter_to_levels lvl with
  | none => false
  | some (tracing_level, log_level) =>
    env.logEnabled queryTarget log_level
      || env.tracingEnabled queryTarget tracing_level

/-- The level selected by `finish` (logger.rs:112-118): the slow level when
`elapsed >= slow_statements_duration`, else the statements level. -/
def selectLevel (s : LogSettings) (elapsed : Nat) : LevelFilter :=
  if s.slow_statements_duration ≤ elapsed then s.slow_statements_level
  else s.statements_level

/-- Modelled from the claim's words, for comparison with `trim_query`: the
common leading indentation of a block is the minimum leading-space count over
its lines, ignoring lines that consist entirely of whitespace; `none` when no
line counts. -/
def commonLeadingIndent (s : Str) : Option Nat :=
  ((splitLines s).filter (fun l => !(l.all isWS))).foldl
    (fun acc l =>
      match acc with
      | none => some (leadingSpaces l)
      | some m => some (Nat.min m (leadingSpaces l)))
    none

/-- `trim_query` with its one input-dependent panic point made explicit: the
dynamically built pattern `^[ ]{1,m}` (logger.rs:212) is syntactically valid
only when its repetition range is nonempty, i.e. `1 ≤ m`; on an invalid
pattern the `build().unwrap()` of logger.rs:214 would panic.  Regex
compilation is otherwise modelled as succeeding on syntactically valid
patterns. -/
def trimQueryE (s : Str) : Except Str Str :=
  match minIndent (splitLines (trimStr s)) with
  | some m =>
    if 1 ≤ m then
      Except.ok (joinLines ((splitLines (trimStr s)).map (dedentLine m)))
    else Except.error "invalid repetition count range".data
  | none => Except.ok (trimStr s)

/-! ### Concrete instances used by counterexamples and witnesses -/

/-- An environment in which every level is enabled for every target in both
facilities, with the identity as the external formatter. -/
def envBoth : Env :=
  { logEnabled := fun _ _ => true
    tracingEnabled := fun _ _ => true
    fmt := fun s => s }

/-- An environment in which every level is enabled in both facilities and the
external formatter is taken to be the dedent routine itself — the reading
most favourable to the specification's claim about the verbose payload. -/
def envDedent : Env :=
  { logEnabled := fun _ _ => true
    tracingEnabled := fun _ _ => true
    fmt := trim_query }

/-- A placeholder record, used only as the default value of `Option.getD`. -/
def defaultRecord : Record :=
  { tracing_level := .error
    summary := []
    statement := []
    rows_affected := 0
    rows_returned := 0
    elapsed := 0
    slow_threshold := none
    message := [] }

/-- A `SELECT 1` logger at level Info, slow level Warn, threshold 1000. -/
def c1logger : QueryLogger :=
  QueryLogger.new "SELECT 1".data
    ⟨LevelFilter.info, LevelFilter.warn, 1000⟩

/-- A logger whose statement has more than 4 whitespace-separated tokens, so
its summary differs from the raw text. -/
def c2logger : QueryLogger :=
  QueryLogger.new "SELECT a, b, c FROM t".data
    ⟨LevelFilter.info, LevelFilter.warn, 1000⟩

/-- The record `c2logger` emits under `envDedent` at elapsed time 0. -/
def c2record : Record := ((c2logger.finish envDedent 0).2).getD defaultRecord

/-- The record `c2logger` emits under `envBoth` at elapsed time 0. -/
def c2wrecord : Record := ((c2logger.finish envBoth 0).2).getD defaultRecord

/-- A logger with `statements_level = Off`, slow level Error and slow
threshold 0, so that every elapsed time takes the slow path. -/
def c3logger : QueryLogger :=
  QueryLogger.new "SELECT 1".data
    ⟨LevelFilter.off, LevelFilter.error, 0⟩

/-- A logger with `statements_level = Off` and a positive slow threshold. -/
def c3wlogger : QueryLogger :=
  QueryLogger.new "SELECT 1".data
    ⟨LevelFilter.off, LevelFilter.error, 5⟩

/-- A logger with slow threshold 0, so that any elapsed time is slow. -/
def c5logger : QueryLogger :=
  QueryLogger.new "SELECT 1".data
    ⟨LevelFilter.info, LevelFilter.warn, 0⟩

/-- The record `c5logger` emits under `envBoth` at elapsed time 7. -/
def c5record : Record := ((c5logger.finish envBoth 7).2).getD defaultRecord

/-- An `UPDATE` logger used to exercise the row counters. -/
def c6logger : QueryLogger :=
  QueryLogger.new "UPDATE t SET x = 1".data
    ⟨LevelFilter.info, LevelFilter.warn, 1000⟩

/-- The specification's mixed-indentation example input. -/
def c7example : Str :=
  "\n        SELECT id\n    FROM users\n          WHERE x\n        ORDER BY y\n    ".data

/-- The expected dedent of `c7example`: 4 spaces removed from every line. -/
def c7expected : Str :=
  "SELECT id\nFROM users\n      WHERE x\n    ORDER BY y".data

/-- A block whose first line is flush left (zero common leading indentation)
but whose second line is indented. -/
def c8example : Str := "SELECT a\n    FROM b".data

/-- A block in which no line at all has leading spaces. -/
def c8noIndentExample : Str := "ab\ncd".data

/-- A block whose minimum found indentation is 2. -/
def c9example : Str := "a\n  b".data

/-- An `INSERT` logger whose statement has more than 4 tokens. -/
def c10logger : QueryLogger :=
  QueryLogger.new "INSERT INTO t VALUES (1, 2)".data
    ⟨LevelFilter.debug, LevelFilter.warn, 1000⟩

/-- The record `c10logger` emits under `envBoth` at elapsed time 0. -/
def c10record : Record := ((c10logger.finish envBoth 0).2).getD defaultRecord

/-! ### Helper lemmas about the line-based dedent model -/

lemma leadingSpaces_nil : leadingSpaces [] = 0 := rfl

lemma leadingSpaces_cons (c : Char) (t : Str) :
    leadingSpaces (c :: t) = if c = ' ' then leadingSpaces t + 1 else 0 := by
  by_cases h : c = ' ' <;> simp [leadingSpaces, List.takeWhile_cons, h]

lemma leadingSpaces_drop (m : Nat) (l : Str) (h : m ≤ leadingSpaces l) :
    leadingSpaces (l.drop m) = leadingSpaces l - m := by
  induction m generalizing l with
  | zero => simp
  | succ n ih =>
    cases l with
    | nil => simp [leadingSpaces_nil] at h
    | cons c cs =>
      have hc : c = ' ' := by
        by_contra hc
        rw [leadingSpaces_cons] at h
        simp [hc] at h
      rw [leadingSpaces_cons, if_pos hc] at h
      rw [List.drop_succ_cons, leadingSpaces_cons, if_pos hc, ih cs (by omega)]
      omega

lemma lineIndent_eq_some {l : Str} {k : Nat} (h : lineIndent l = some k) :
    leadingSpaces l = k ∧ 1 ≤ k := by
  unfold lineIndent at h
  by_cases h1 : 1 ≤ leadingSpaces l
  · rw [if_pos h1] at h
    cases hd : l.drop (leadingSpaces l) with
    | nil => rw [hd] at h; simp at h
    | cons c cs =>
      rw [hd] at h
      by_cases hw : isWS c = true
      · simp [hw] at h
      · simp [hw] at h
        exact ⟨h, h ▸ h1⟩
  · rw [if_neg h1] at h; exact absurd h (by simp)

lemma splitLines_ne_nil (s : Str) : splitLines s ≠ [] := by
  induction s with
  | nil => simp [splitLines]
  | cons c cs ih =>
    simp only [splitLines]
    cases h : splitLines cs with
    | nil => simp
    | cons l ls => by_cases hc : c = '\n' <;> simp [hc]

lemma newline_not_mem_splitLines (s : Str) : ∀ l ∈ splitLines s, '\n' ∉ l := by
  induction s with
  | nil =>
    intro l hl
    simp only [splitLines, List.mem_singleton] at hl
    subst hl
    simp
  | cons c cs ih =>
    intro l hl
    simp only [splitLines] at hl
    cases h : splitLines cs with
    | nil => exact absurd h (splitLines_ne_nil cs)
    | cons l0 ls =>
      rw [h] at hl
      by_cases hc : c = '\n'
      · simp [hc] at hl
        rcases hl with rfl | rfl | hl'
        · simp
        · exact ih l (h ▸ List.mem_cons_self l ls)
        · exact ih l (h ▸ List.mem_cons_of_mem l0 hl')
      · simp [hc] at hl
        rcases hl with rfl | hl'
        · intro hmem
          rcases List.mem_cons.mp hmem with he | hmem'
          · exact hc he.symm
          · exact ih l0 (h ▸ List.mem_cons_self l0 ls) hmem'
        · exact ih l (h ▸ List.mem_cons_of_mem l0 hl')

lemma splitLines_of_no_newline {l : Str} (h : '\n' ∉ l) : splitLines l = [l] := by
  induction l with
  | nil => rfl
  | cons c cs ih =>
    have hc : c ≠ '\n' := fun he => h (he ▸ List.mem_cons_self c cs)
    have hcs : '\n' ∉ cs := fun hm => h (List.mem_cons_of_mem c hm)
    rw [splitLines, ih hcs]
    simp [hc]

lemma splitLines_append_newline (l r : Str) (h : '\n' ∉ l) :
    splitLines (l ++ '\n' :: r) = l :: splitLines r := by
  induction l with
  | nil =>
    rw [List.nil_append, splitLines]
    cases hr : splitLines r with
    | nil => exact absurd hr (splitLines_ne_nil r)
    | cons a as => simp
  | cons c cs ih =>
    have hc : c ≠ '\n' := fun he => h (he ▸ List.mem_cons_self c cs)
    have hcs : '\n' ∉ cs := fun hm => h (List.mem_cons_of_mem c hm)
    rw [List.cons_append, splitLines, ih hcs]
    simp [hc]

lemma splitLines_joinLines : ∀ (L : List Str), L ≠ [] → (∀ l ∈ L, '\n' ∉ l) →
    splitLines (joinLines L) = L := by
  intro L
  induction L with
  | nil => intro h; exact absurd rfl h
  | cons l ls ih =>
    intro _ hno
    cases ls with
    | nil =>
      rw [joinLines]
      exact splitLines_of_no_newline (hno l (List.mem_cons_self l []))
    | cons l2 ls2 =>
      have hne2 : l2 :: ls2 ≠ [] := List.cons_ne_nil l2 ls2
      have hsplit := ih hne2 (fun x hx => hno x (List.mem_cons_of_mem l hx))
      have hjoin : joinLines (l :: l2 :: ls2) = l ++ '\n' :: joinLines (l2 :: ls2) := rfl
      rw [hjoin, splitLines_append_newline l _ (hno l (List.mem_cons_self l _)),
        hsplit]

lemma minFold_le : ∀ (L : List Str) (acc : Option Nat) (m : Nat),
    L.foldl minStep acc = some m →
    (∀ l ∈ L, ∀ k, lineIndent l = some k → m ≤ k) ∧
      (∀ a, acc = some a → m ≤ a) := by
  intro L
  induction L with
  | nil =>
    intro acc m h
    simp only [List.foldl_nil] at h
    exact ⟨by simp, fun a ha => by rw [ha] at h; exact le_of_eq (Option.some.inj h).symm⟩
  | cons l ls ih =>
    intro acc m h
    rw [List.foldl_cons] at h
    obtain ⟨h1, h2⟩ := ih (minStep acc l) m h
    refine ⟨?_, ?_⟩
    · intro x hx k hk
      rcases List.mem_cons.mp hx with rfl | hx'
      · cases hacc : acc with
        | none => exact h2 k (by simp [minStep, hk, hacc])
        | some a =>
          exact le_trans (h2 (Nat.min a k) (by simp [minStep, hk, hacc]))
            (Nat.min_le_right a k)
      · exact h1 x hx' k hk
    · intro a ha
      cases hk : lineIndent l with
      | none => exact h2 a (by simp [minStep, hk, ha])
      | some k =>
        exact le_trans (h2 (Nat.min a k) (by simp [minStep, hk, ha]))
          (Nat.min_le_left a k)

lemma minFold_pos : ∀ (L : List Str) (acc : Option Nat),
    (∀ a, acc = some a → 1 ≤ a) → ∀ m, L.foldl minStep acc = some m → 1 ≤ m := by
  intro L
  induction L with
  | nil =>
    intro acc hacc m h
    simp only [List.foldl_nil] at h
    exact hacc m h
  | cons l ls ih =>
    intro acc hacc m h
    rw [List.foldl_cons] at h
    refine ih (minStep acc l) ?_ m h
    intro a ha
    cases hk : lineIndent l with
    | none =>
      rw [minStep, hk] at ha
      exact hacc a ha
    | some k =>
      have hk1 : 1 ≤ k := (lineIndent_eq_some hk).2
      rw [minStep, hk] at ha
      cases hacc2 : acc with
      | none => rw [hacc2] at ha; simp at ha; omega
      | some b =>
        rw [hacc2] at ha
        simp at ha
        have hb := hacc b hacc2
        have hmin : b.min k = b ∨ b.min k = k := by
          unfold Nat.min
          by_cases hbk : b ≤ k
          · exact Or.inl (if_pos hbk)
          · exact Or.inr (if_neg hbk)
        omega

lemma minFold_none : ∀ (L : List Str) (acc : Option Nat),
    (∀ l ∈ L, lineIndent l = none) → L.foldl minStep acc = acc := by
  intro L
  induction L with
  | nil => intro acc _; rfl
  | cons l ls ih =>
    intro acc hno
    rw [List.foldl_cons, minStep, hno l (List.mem_cons_self l ls),
      ih acc (fun x hx => hno x (List.mem_cons_of_mem l hx))]

/-! ### Helper lemmas about the level bridge and emission -/

lemma levels_eq_none_iff (f : LevelFilter) :
    private_level_filter_to_levels f = none ↔ f = LevelFilter.off := by
  cases f <;> simp [private_level_filter_to_levels, tracingLevelOf, logLevelOf, ozip]

lemma ozip_eq_some {α β : Type} {a : Option α} {b : Option β} {x : α} {y : β}
    (h : ozip a b = some (x, y)) : a = some x ∧ b = some y := by
  cases a with
  | none => exact absurd h (by simp [ozip])
  | some a0 =>
    cases b with
    | none => exact absurd h (by simp [ozip])
    | some b0 =>
      rw [ozip] at h
      obtain ⟨h1, h2⟩ := Prod.mk.injEq .. ▸ Option.some.inj h
      exact ⟨by rw [h1], by rw [h2]⟩

lemma emitRecord_isSome_iff (l : QueryLogger) (env : Env) (e : Nat) :
    (l.emitRecord env e).isSome = true ↔
      (selectLevel l.settings e ≠ LevelFilter.off ∧
        isActive env (selectLevel l.settings e) = true) := by
  have heq : l.emitRecord env e =
      match private_level_filter_to_levels (selectLevel l.settings e) with
      | none => none
      | some (tracing_level, log_level) =>
        if env.logEnabled queryTarget log_level
            || env.tracingEnabled queryTarget tracing_level then
          some (l.buildRecord env e tracing_level)
        else none := rfl
  rw [heq]
  cases hm : private_level_filter_to_levels (selectLevel l.settings e) with
  | none =>
    have hoff := (levels_eq_none_iff _).mp hm
    simp [hoff]
  | some p =>
    obtain ⟨tl, ll⟩ := p
    have hne : selectLevel l.settings e ≠ LevelFilter.off := by
      intro hoff
      rw [(levels_eq_none_iff _).mpr hoff] at hm
      exact absurd hm (by simp)
    rw [isActive, hm]
    rcases Bool.eq_false_or_eq_true
        (env.logEnabled queryTarget ll || env.tracingEnabled queryTarget tl) with
      hb | hb
    · simp [hb, hne]
    · simp [hb, hne]

lemma finish_snd (l : QueryLogger) (env : Env) (e : Nat) :
    (l.finish env e).2 = l.recordRowCount.emitRecord env e := rfl

lemma finish_fst (l : QueryLogger) (env : Env) (e : Nat) :
    (l.finish env e).1 = l.recordRowCount := rfl

lemma recordRowCount_settings (l : QueryLogger) :
    l.recordRowCount.settings = l.settings := rfl

lemma recordRowCount_sql (l : QueryLogger) : l.recordRowCount.sql = l.sql := rfl

lemma buildRecord_message (l : QueryLogger) (env : Env) (e : Nat)
    (tl : TracingLevel) : (l.buildRecord env e tl).message =
      if l.settings.slow_statements_duration ≤ e then slowMessage else [] := rfl

lemma buildRecord_slow_threshold (l : QueryLogger) (env : Env) (e : Nat)
    (tl : TracingLevel) : (l.buildRecord env e tl).slow_threshold =
      if l.settings.slow_statements_duration ≤ e then
        some l.settings.slow_statements_duration
      else none := rfl

lemma buildRecord_summary (l : QueryLogger) (env : Env) (e : Nat)
    (tl : TracingLevel) : (l.buildRecord env e tl).summary =
      if parse_query_summary l.sql ≠ l.sql then
        parse_query_summary l.sql ++ truncationSuffix
      else parse_query_summary l.sql := rfl

lemma buildRecord_statement (l : QueryLogger) (env : Env) (e : Nat)
    (tl : TracingLevel) : (l.buildRecord env e tl).statement =
      if parse_query_summary l.sql ≠ l.sql then
        '\n' :: '\n' :: (env.fmt l.sql ++ ['\n'])
      else [] := rfl

lemma increase_rows_affected_val (l : QueryLogger) (n : Nat) :
    (l.increase_rows_affected n).rows_affected =
      (l.rows_affected + n) % U64LIMIT := rfl

lemma increment_rows_returned_val (l : QueryLogger) :
    l.increment_rows_returned.rows_returned =
      (l.rows_returned + 1) % U64LIMIT := rfl

lemma emitRecord_some_shape {l : QueryLogger} {env : Env} {e : Nat} {r : Record}
    (h : l.emitRecord env e = some r) :
    tracingLevelOf (selectLevel l.settings e) = some r.tracing_level ∧
      r = l.buildRecord env e r.tracing_level := by
  have heq : l.emitRecord env e =
      match private_level_filter_to_levels (selectLevel l.settings e) with
      | none => none
      | some (tracing_level, log_level) =>
        if env.logEnabled queryTarget log_level
            || env.tracingEnabled queryTarget tracing_level then
          some (l.buildRecord env e tracing_level)
        else none := rfl
  rw [heq] at h
  cases hm : private_level_filter_to_levels (selectLevel l.settings e) with
  | none => rw [hm] at h; exact absurd h (by simp)
  | some p =>
    obtain ⟨tl, ll⟩ := p
    rw [hm] at h
    have h2 : (if (env.logEnabled queryTarget ll
          || env.tracingEnabled queryTarget tl) = true then
        some (l.buildRecord env e tl) else none) = some r := h
    by_cases hb : (env.logEnabled queryTarget ll
        || env.tracingEnabled queryTarget tl) = true
    · rw [if_pos hb] at h2
      have hr : r = l.buildRecord env e tl := (Option.some.inj h2).symm
      have htl : r.tracing_level = tl := by rw [hr]; rfl
      constructor
      · rw [htl]; exact (ozip_eq_some hm).1
      · rw [htl]; exact hr
    · rw [if_neg hb] at h2; exact absurd h2 (by simp)

lemma record_fields_of_emit {l : QueryLogger} {env : Env} {e : Nat} {r : Record}
    (h : l.emitRecord env e = some r) :
    (l.settings.slow_statements_duration ≤ e →
        tracingLevelOf l.settings.slow_statements_level = some r.tracing_level ∧
        r.message = slowMessage ∧
        r.slow_threshold = some l.settings.slow_statements_duration) ∧
      (e < l.settings.slow_statements_duration →
        tracingLevelOf l.settings.statements_level = some r.tracing_level ∧
        r.slow_threshold = none ∧ r.message = []) := by
  obtain ⟨htl, hr⟩ := emitRecord_some_shape h
  constructor
  · intro hd
    have hsel : selectLevel l.settings e = l.settings.slow_statements_level := by
      rw [selectLevel, if_pos hd]
    refine ⟨by rw [← hsel]; exact htl, ?_, ?_⟩
    · rw [hr, buildRecord_message, if_pos hd]
    · rw [hr, buildRecord_slow_threshold, if_pos hd]
  · intro hfast
    have hnd : ¬ l.settings.slow_statements_duration ≤ e := Nat.not_le.mpr hfast
    have hsel : selectLevel l.settings e = l.settings.statements_level := by
      rw [selectLevel, if_neg hnd]
    refine ⟨by rw [← hsel]; exact htl, ?_, ?_⟩
    · rw [hr, buildRecord_slow_threshold, if_neg hnd]
    · rw [hr, buildRecord_message, if_neg hnd]

lemma foldl_increase_rows_affected : ∀ (ns : List Nat) (l : QueryLogger),
    l.rows_affected + ns.sum < U64LIMIT →
    (ns.foldl (fun l n => l.increase_rows_affected n) l).rows_affected =
      l.rows_affected + ns.sum := by
  intro ns
  induction ns with
  | nil => intro l _; simp
  | cons n ns ih =>
    intro l h
    have hsum : (n :: ns).sum = n + ns.sum := List.sum_cons
    rw [hsum] at h
    have hmod : (l.increase_rows_affected n).rows_affected = l.rows_affected + n := by
      rw [increase_rows_affected_val]
      exact Nat.mod_eq_of_lt (by omega)
    rw [List.foldl_cons, ih (l.increase_rows_affected n) (by rw [hmod]; omega),
      hmod, hsum]
    omega

/-! ### Claim theorems -/

/-- C1, counterexample: the claim that the explicit and automatic
finalization paths never both emit a record is false on the code.  `finish`
takes `&self` and keeps no emitted flag, and `Drop::drop` unconditionally
calls `finish` again (logger.rs:101, 179-183): for the `SELECT 1` logger at
level Info with both facilities enabled, an explicit `finish` followed by
the drop emits two records. -/
theorem c1_counterexample_double_emission :
    (finishThenDrop c1logger envBoth 0 0).length = 2 ∧
      ¬ (finishThenDrop c1logger envBoth 0 0).length ≤ 1 := by decide

/-- C1, amended: each single `finish` invocation — in particular the one the
drop path performs — emits at most one record, so at most one terminal event
is emitted whenever finalization runs through exactly one path; an explicit
`finish` followed by the drop, however, runs the emission logic twice and
can emit up to two records. -/
theorem c1_amended_per_invocation_at_most_one (l : QueryLogger) (env : Env)
    (e1 e2 : Nat) :
    ((l.dropLogger env e1).2).toList.length ≤ 1 ∧
      (finishThenDrop l env e1 e2).length ≤ 2 := by
  refine ⟨?_, ?_⟩
  · cases (l.dropLogger env e1).2 <;> simp
  · rw [finishThenDrop, List.length_append]
    have h1 : ((l.finish env e1).2).toList.length ≤ 1 := by
      cases (l.finish env e1).2 <;> simp
    have h2 : (((l.finish env e1).1.dropLogger env e2).2).toList.length ≤ 1 := by
      cases ((l.finish env e1).1.dropLogger env e2).2 <;> simp
    omega

/-- C2, counterexample: the claim that, when the summary differs from the
raw text, the verbose payload is the statement rendered through the Dedent
Engine wrapped with a leading and a trailing newline is false.  Even under
the reading most favourable to the claim — taking the external formatter to
be the dedent routine itself (`envDedent`) — the emitted payload carries two
leading newlines (`"\n\n{}\n"`, logger.rs:130-137); and in the source the
renderer is `sqlformat::format`, not `trim_query`. -/
theorem c2_counterexample_payload_not_dedent_wrap :
    (c2logger.finish envDedent 0).2 = some c2record ∧
      c2record.statement ≠ '\n' :: (trim_query c2logger.sql ++ ['\n']) := by
  decide

/-- C2, amended: whenever `finish` emits a record, the verbose payload is
the statement rendered through the external formatter, prefixed with two
newlines and suffixed with one, when the 4-token summary differs from the
raw statement text; and the empty string when the summary equals the raw
text. -/
theorem c2_amended_verbose_payload (l : QueryLogger) (env : Env) (e : Nat)
    (r : Record) (h : (l.finish env e).2 = some r) :
    (parse_query_summary l.sql ≠ l.sql →
        r.statement = '\n' :: '\n' :: (env.fmt l.sql ++ ['\n'])) ∧
      (parse_query_summary l.sql = l.sql → r.statement = []) := by
  have h2 : l.recordRowCount.emitRecord env e = some r := h
  obtain ⟨-, hr⟩ := emitRecord_some_shape h2
  constructor
  · intro hne
    rw [hr, buildRecord_statement, recordRowCount_sql, if_pos hne]
  · intro heq
    rw [hr, buildRecord_statement, recordRowCount_sql, if_neg (fun hk => hk heq)]

/-- Witness for the amended C2 at the concrete `SELECT a, b, c FROM t`
logger with both facilities enabled and the identity formatter. -/
theorem c2_amended_verbose_payload_witness :
    (c2logger.finish envBoth 0).2 = some c2wrecord ∧
      ((parse_query_summary c2logger.sql ≠ c2logger.sql →
          c2wrecord.statement = '\n' :: '\n' :: (envBoth.fmt c2logger.sql ++ ['\n'])) ∧
        (parse_query_summary c2logger.sql = c2logger.sql →
          c2wrecord.statement = [])) :=
  ⟨by decide, c2_amended_verbose_payload c2logger envBoth 0 c2wrecord (by decide)⟩

/-- C3, counterexample: the claim that `statements_level = Off` suppresses
emission for every `slow_statements_duration`, elapsed time and row counts
is false: with `slow_statements_level = Error` and
`slow_statements_duration = 0`, elapsed time 0 satisfies
`elapsed >= duration`, so `finish` selects the Error slow level and emits
(logger.rs:112-118). -/
theorem c3_counterexample_off_still_emits_when_slow :
    c3logger.settings.statements_level = LevelFilter.off ∧
      ((c3logger.finish envBoth 0).2).isSome = true := by decide

/-- C3, amended: with `statements_level = Off`, `finish` emits nothing
whenever the elapsed time is below `slow_statements_duration`, for every
environment and all row counts; at or above the threshold emission is
governed by `slow_statements_level` instead. -/
theorem c3_amended_off_emits_nothing_when_not_slow (l : QueryLogger)
    (env : Env) (e : Nat)
    (hoff : l.settings.statements_level = LevelFilter.off)
    (hfast : e < l.settings.slow_statements_duration) :
    (l.finish env e).2 = none := by
  have hiff := emitRecord_isSome_iff l.recordRowCount env e
  have hsel : selectLevel l.settings e = LevelFilter.off := by
    rw [selectLevel, if_neg (Nat.not_le.mpr hfast), hoff]
  cases hopt : (l.finish env e).2 with
  | none => rfl
  | some r =>
    have hsome : (l.recordRowCount.emitRecord env e).isSome = true := by
      rw [← finish_snd, hopt]; rfl
    exact absurd hsel (hiff.mp hsome).1

/-- Witness for the amended C3: the Off-level logger with slow threshold 5
emits nothing at elapsed time 0 even with both facilities fully enabled. -/
theorem c3_amended_witness :
    (c3wlogger.settings.statements_level = LevelFilter.off ∧
        0 < c3wlogger.settings.slow_statements_duration) ∧
      (c3wlogger.finish envBoth 0).2 = none :=
  ⟨⟨rfl, by decide⟩,
    c3_amended_off_emits_nothing_when_not_slow c3wlogger envBoth 0 rfl (by decide)⟩

/-- C4: `finish` emits a record exactly when the level selected by the
slow/normal split is not Off and that level is enabled for the fixed target
`sqlx::query` in at least one of the two facilities; otherwise nothing is
emitted (logger.rs:120-125). -/
theorem c4_emission_iff_level_active (l : QueryLogger) (env : Env) (e : Nat) :
    ((l.finish env e).2).isSome = true ↔
      (selectLevel l.settings e ≠ LevelFilter.off ∧
        isActive env (selectLevel l.settings e) = true) :=
  emitRecord_isSome_iff l.recordRowCount env e

/-- C5: whenever `finish` emits a record and
`elapsed >= slow_statements_duration`, the record's severity is the level
`slow_statements_level` maps to, its message contains the substring `slow`,
and it carries the configured threshold in the `slow_threshold` field; below
the threshold the severity comes from `statements_level` and no
`slow_threshold` field is present (logger.rs:112-118, 142-173). -/
theorem c5_slow_path_record_shape (l : QueryLogger) (env : Env) (e : Nat)
    (r : Record) (h : (l.finish env e).2 = some r) :
    (l.settings.slow_statements_duration ≤ e →
        tracingLevelOf l.settings.slow_statements_level = some r.tracing_level ∧
        (∃ i, (r.message.drop i).take 4 = ['s', 'l', 'o', 'w']) ∧
        r.slow_threshold = some l.settings.slow_statements_duration) ∧
      (e < l.settings.slow_statements_duration →
        tracingLevelOf l.settings.statements_level = some r.tracing_level ∧
        r.slow_threshold = none) := by
  have h2 : l.recordRowCount.emitRecord env e = some r := h
  have hf := record_fields_of_emit h2
  refine ⟨fun hd => ?_, fun hfast => ?_⟩
  · obtain ⟨ht, hmsg, hth⟩ := hf.1 hd
    exact ⟨ht, ⟨0, by rw [hmsg]; decide⟩, hth⟩
  · obtain ⟨ht, hth, -⟩ := hf.2 hfast
    exact ⟨ht, hth⟩

/-- Witness for C5: the threshold-0 logger at elapsed time 7 emits a Warn
record whose message contains `slow` and whose `slow_threshold` field is the
configured threshold. -/
theorem c5_slow_path_record_shape_witness :
    ((c5logger.finish envBoth 7).2 = some c5record ∧
        c5logger.settings.slow_statements_duration ≤ 7) ∧
      (tracingLevelOf c5logger.settings.slow_statements_level =
          some c5record.tracing_level ∧
        (∃ i, (c5record.message.drop i).take 4 = ['s', 'l', 'o', 'w']) ∧
        c5record.slow_threshold =
          some c5logger.settings.slow_statements_duration) :=
  ⟨⟨by decide, by decide⟩,
    (c5_slow_path_record_shape c5logger envBoth 7 c5record (by decide)).1
      (by decide)⟩

/-- C6: `increase_rows_affected` accumulates additively across calls (within
the `u64` range), `increment_rows_returned` adds exactly 1 per call, and
`finish` records on the span `rows_affected` when it is positive and
`rows_returned` otherwise (logger.rs:93-109). -/
theorem c6_row_counters :
    (∀ (sql : Str) (st : LogSettings) (ns : List Nat), ns.sum < U64LIMIT →
        ((ns.foldl (fun l n => l.increase_rows_affected n)
            (QueryLogger.new sql st)).rows_affected = ns.sum)) ∧
      (∀ l : QueryLogger, l.rows_returned + 1 < U64LIMIT →
        l.increment_rows_returned.rows_returned = l.rows_returned + 1) ∧
      (∀ (l : QueryLogger) (env : Env) (e : Nat),
        ((l.finish env e).1).spanRowCount =
          some (if l.rows_affected > 0 then l.rows_affected
            else l.rows_returned)) := by
  refine ⟨?_, ?_, ?_⟩
  · intro sql st ns h
    have h0 : (QueryLogger.new sql st).rows_affected = 0 := rfl
    have hfold := foldl_increase_rows_affected ns (QueryLogger.new sql st)
      (by rw [h0]; omega)
    rw [hfold, h0]
    omega
  · intro l h
    rw [increment_rows_returned_val]
    exact Nat.mod_eq_of_lt h
  · intro l env e
    rfl

/-- Witness for C6: affected rows 2 and 3 accumulate to 5 on the `UPDATE`
logger, and one returned-row increment takes the counter from 0 to 1. -/
theorem c6_row_counters_witness :
    (List.sum [2, 3] < U64LIMIT ∧
        (([2, 3].foldl (fun l n => l.increase_rows_affected n)
            c6logger).rows_affected = List.sum [2, 3])) ∧
      (c6logger.rows_returned + 1 < U64LIMIT ∧
        c6logger.increment_rows_returned.rows_returned =
          c6logger.rows_returned + 1) :=
  ⟨⟨by decide,
      c6_row_counters.1 "UPDATE t SET x = 1".data
        ⟨LevelFilter.info, LevelFilter.warn, 1000⟩ [2, 3] (by decide)⟩,
    ⟨by decide, c6_row_counters.2.1 c6logger (by decide)⟩⟩

/-- C7: when the indentation scan finds a minimum `m` over the lines of the
trimmed input, `trim_query` maps every line through the up-to-`m`-space
strip; every counted line (one or more leading spaces followed by a
non-space) has at least `m` leading spaces and loses exactly `m` of them,
keeping relative indentation intact; whitespace-only lines never count, nor
does a line starting with a tab; and on the spec's mixed-indentation example
the minimum is 4 and the result is the expected dedent. -/
theorem c7_dedent_strips_exact_minimum :
    (∀ (s : Str) (m : Nat), minIndent (splitLines (trimStr s)) = some m →
        splitLines (trim_query s) = (splitLines (trimStr s)).map (dedentLine m) ∧
        ∀ l ∈ splitLines (trimStr s), ∀ k, lineIndent l = some k →
          m ≤ k ∧ dedentLine m l = l.drop m ∧
            leadingSpaces (dedentLine m l) = k - m) ∧
      (∀ l : Str, (∀ c ∈ l, isWS c = true) → lineIndent l = none) ∧
      (∀ t : Str, lineIndent ('\t' :: t) = none) ∧
      minIndent (splitLines (trimStr c7example)) = some 4 ∧
      trim_query c7example = c7expected := by
  refine ⟨?_, ?_, ?_, by decide, by decide⟩
  · intro s m hm
    have htr : trim_query s =
        joinLines ((splitLines (trimStr s)).map (dedentLine m)) := by
      have hdef : trim_query s =
          (match minIndent (splitLines (trimStr s)) with
          | some m0 => joinLines ((splitLines (trimStr s)).map (dedentLine m0))
          | none => trimStr s) := rfl
      rw [hdef, hm]
    constructor
    · rw [htr]
      refine splitLines_joinLines _ ?_ ?_
      · intro hx
        exact splitLines_ne_nil (trimStr s) (List.map_eq_nil_iff.mp hx)
      · intro l hl hmem
        obtain ⟨l0, hl0, rfl⟩ := List.mem_map.mp hl
        exact newline_not_mem_splitLines (trimStr s) l0 hl0
          ((List.drop_sublist _ _).mem hmem)
    · intro l hl k hk
      have hmle := (minFold_le (splitLines (trimStr s)) none m hm).1 l hl k hk
      obtain ⟨hls, hk1⟩ := lineIndent_eq_some hk
      have hminm : Nat.min m (leadingSpaces l) = m := by
        rw [hls]
        unfold Nat.min
        exact if_pos hmle
      refine ⟨hmle, ?_, ?_⟩
      · rw [dedentLine, hminm]
      · rw [dedentLine, hminm, leadingSpaces_drop m l (by omega), hls]
  · intro l hws
    rw [lineIndent]
    by_cases h1 : 1 ≤ leadingSpaces l
    · rw [if_pos h1]
      cases hd : l.drop (leadingSpaces l) with
      | nil => rfl
      | cons c cs =>
        have hc : c ∈ l :=
          (List.drop_sublist _ _).mem (hd ▸ List.mem_cons_self c cs)
        have hred : (if isWS c = true then (none : Option Nat)
            else some (leadingSpaces l)) = none := by
          rw [hws c hc]
          rfl
        exact hred
    · rw [if_neg h1]
  · intro t
    have h0 : leadingSpaces ('\t' :: t) = 0 := by
      rw [leadingSpaces_cons]
      simp
    rw [lineIndent, h0]
    rfl

/-- Witness for C7 at the spec's mixed-indentation example, whose minimum
found indentation is 4. -/
theorem c7_dedent_strips_exact_minimum_witness :
    minIndent (splitLines (trimStr c7example)) = some 4 ∧
      splitLines (trim_query c7example) =
        (splitLines (trimStr c7example)).map (dedentLine 4) :=
  ⟨by decide, (c7_dedent_strips_exact_minimum.1 c7example 4 (by decide)).1⟩

/-- C8, counterexample: the claim that every input with zero common leading
indentation comes back merely whole-block-trimmed is false:
`"SELECT a\n    FROM b"` has common leading indentation 0 (its first line is
flush left), yet `trim_query` strips 4 spaces from the second line, because
the `^( +)\S` scan only considers lines that do have leading spaces. -/
theorem c8_counterexample_zero_common_indent_still_changed :
    commonLeadingIndent c8example = some 0 ∧
      trim_query c8example ≠ trimStr c8example := by decide

/-- C8, amended: dedent of the empty, the spaces-only and the newlines-only
strings is the empty string; and every input none of whose post-trim lines
matches the indentation pattern (one or more leading spaces followed by a
non-space character) is returned whole-block-trimmed but otherwise
unchanged. -/
theorem c8_amended_trivial_inputs_and_unmatched_scan :
    trim_query "".data = [] ∧ trim_query "   ".data = [] ∧
      trim_query "\n\n".data = [] ∧
      ∀ s : Str, (∀ l ∈ splitLines (trimStr s), lineIndent l = none) →
        trim_query s = trimStr s := by
  refine ⟨by decide, by decide, by decide, ?_⟩
  intro s hno
  have hmin : minIndent (splitLines (trimStr s)) = none :=
    minFold_none (splitLines (trimStr s)) none hno
  have hdef : trim_query s =
      (match minIndent (splitLines (trimStr s)) with
      | some m0 => joinLines ((splitLines (trimStr s)).map (dedentLine m0))
      | none => trimStr s) := rfl
  rw [hdef, hmin]

/-- Witness for the amended C8: `"ab\ncd"` has no line with leading spaces
and is returned unchanged. -/
theorem c8_amended_witness :
    (∀ l ∈ splitLines (trimStr c8noIndentExample), lineIndent l = none) ∧
      trim_query c8noIndentExample = trimStr c8noIndentExample :=
  ⟨by decide,
    c8_amended_trivial_inputs_and_unmatched_scan.2.2.2 c8noIndentExample
      (by decide)⟩

/-- C9: the component's operations are total and never surface a failure:
any minimum indentation the scan finds is at least 1, so the dynamically
built repetition range `{1,m}` is always valid and the `build().unwrap()`
cannot panic — `trimQueryE` always returns `ok` with the value of
`trim_query`; and the counter mutators always produce in-range `u64` values
(wrap-around, no abort).  `finish` itself returns a state and an optional
record by construction, with no error case. -/
theorem c9_total_and_never_fails :
    (∀ (s : Str) (m : Nat), minIndent (splitLines (trimStr s)) = some m →
        1 ≤ m) ∧
      (∀ s : Str, trimQueryE s = Except.ok (trim_query s)) ∧
      (∀ (l : QueryLogger) (n : Nat),
        (l.increase_rows_affected n).rows_affected < U64LIMIT ∧
          l.increment_rows_returned.rows_returned < U64LIMIT) := by
  have hpos : ∀ (s : Str) (m : Nat),
      minIndent (splitLines (trimStr s)) = some m → 1 ≤ m := by
    intro s m hm
    exact minFold_pos (splitLines (trimStr s)) none
      (fun a ha => Option.noConfusion ha) m hm
  refine ⟨hpos, ?_, ?_⟩
  · intro s
    have hdef : trim_query s =
        (match minIndent (splitLines (trimStr s)) with
        | some m0 => joinLines ((splitLines (trimStr s)).map (dedentLine m0))
        | none => trimStr s) := rfl
    cases hm : minIndent (splitLines (trimStr s)) with
    | none => rw [trimQueryE, hm, hdef, hm]
    | some m =>
      have h1 : trimQueryE s = if 1 ≤ m then
          Except.ok (joinLines ((splitLines (trimStr s)).map (dedentLine m)))
        else Except.error "invalid repetition count range".data := by
        rw [trimQueryE, hm]
      have h2 : trim_query s =
          joinLines ((splitLines (trimStr s)).map (dedentLine m)) := by
        rw [hdef, hm]
      rw [h1, h2, if_pos (hpos s m hm)]
  · intro l n
    constructor
    · rw [increase_rows_affected_val]
      exact Nat.mod_lt _ (by rw [U64LIMIT]; omega)
    · rw [increment_rows_returned_val]
      exact Nat.mod_lt _ (by rw [U64LIMIT]; omega)

/-- Witness for C9 at a block whose found minimum indentation is 2. -/
theorem c9_total_and_never_fails_witness :
    minIndent (splitLines (trimStr c9example)) = some 2 ∧ 1 ≤ 2 :=
  ⟨by decide, c9_total_and_never_fails.1 c9example 2 (by decide)⟩

/-- C10: whenever `finish` emits a record, the emitted summary field is the
4-token summary with the fixed truncation suffix — a space followed by the
source's literal ellipsis marker — appended when the summary differs from
the raw text, and exactly the raw statement text when the summary equals it
(logger.rs:126-140). -/
theorem c10_summary_truncation_suffix (l : QueryLogger) (env : Env) (e : Nat)
    (r : Record) (h : (l.finish env e).2 = some r) :
    (parse_query_summary l.sql ≠ l.sql →
        r.summary = parse_query_summary l.sql ++ (' ' :: ellipsisMarker)) ∧
      (parse_query_summary l.sql = l.sql → r.summary = l.sql) := by
  have h2 : l.recordRowCount.emitRecord env e = some r := h
  obtain ⟨-, hr⟩ := emitRecord_some_shape h2
  constructor
  · intro hne
    rw [hr, buildRecord_summary, recordRowCount_sql, if_pos hne]
    rfl
  · intro heq
    rw [hr, buildRecord_summary, recordRowCount_sql,
      if_neg (fun hk => hk heq)]
    exact heq

/-- Witness for C10: the `INSERT INTO t VALUES (1, 2)` logger's emitted
summary is its 4-token summary followed by the truncation suffix. -/
theorem c10_summary_truncation_suffix_witness :
    ((c10logger.finish envBoth 0).2 = some c10record ∧
        parse_query_summary c10logger.sql ≠ c10logger.sql) ∧
      c10record.summary =
        parse_query_summary c10logger.sql ++ (' ' :: ellipsisMarker) :=
  ⟨⟨by decide, by decide⟩,
    (c10_summary_truncation_suffix c10logger envBoth 0 c10record
      (by decide)).1 (by decide)⟩

end SqlxLogger
